import Mathlib

/-!
Verification of the Card Feature & Synergy Analysis Engine
(`analysis/card_analyzer.py` of the PKMcopilot repository).

The Python source is shallowly embedded as executable Lean definitions:

* Python `float` arithmetic on the small decimal constants of the analyzer
  (0.1 … 1.0, ratios of small integers) is modelled by exact rationals (`ℚ`).
* SQLite rows are records whose nullable columns are `Option`-typed.
* A stored text column that the source feeds to `json.loads` is modelled by
  `RawField α`: the raw string together with the outcome of the JSON decoder
  (`decoded = some v` when the string is valid JSON whose payload has the
  documented shape `α`, `decoded = none` when `json.loads` raises
  `JSONDecodeError`).
* Python exceptions that escape a function are modelled with `Except PyErr`;
  a `try/except` block that swallows an exception is modelled by matching on
  the `Except` value of the guarded code.
* `list(set(xs))` is modelled by `dedup` (first-occurrence order); CPython's
  set iteration order is unspecified and no property proved here depends on
  the order of such a list, only on membership and cardinality.
* The optional spaCy augmentation of `_extract_semantic_keywords` is an
  external capability (its failure is swallowed by the source); it is
  modelled as contributing no extra tokens.  All properties proved about
  keywords are universally quantified over the keyword list or do not
  depend on augmented tokens.

Regular-expression matching (`re.findall`) for the six fixed numeric
patterns is implemented by dedicated scanners over `List Char`; each
scanner's doc comment states the pattern it implements.
-/

namespace PKM

/-! ## Character/string utilities (ASCII fragment of Python `str` methods) -/

/-- ASCII lower-casing of one character, modelling `str.lower` on the
card texts (which are ASCII apart from the letter é, fixed by both). -/
def lowerChar (c : Char) : Char :=
  if 65 ≤ c.toNat ∧ c.toNat ≤ 90 then Char.ofNat (c.toNat + 32) else c

/-- `s.lower()` as a character list. -/
def lowerData (s : String) : List Char := s.data.map lowerChar

/-- Does `needle` occur as a contiguous substring of `hay`?
Models Python's `needle in hay` on strings. -/
def containsSub (needle : List Char) : List Char → Bool
  | [] => needle.isEmpty
  | c :: cs => needle.isPrefixOf (c :: cs) || containsSub needle cs

/-- Python `needle in hay` for `String`s (after any lower-casing is done
by the caller, as in the source). -/
def strContains (hay needle : String) : Bool :=
  containsSub needle.data hay.data

/-- Python `s.startswith('[')`. -/
def startsWithBracket (s : String) : Bool :=
  match s.data with
  | '[' :: _ => true
  | _ => false

/-- Python `s.split(',')` (keeps empty pieces, no limit). -/
def splitCommaData : List Char → List (List Char)
  | [] => [[]]
  | c :: cs =>
    if c = ',' then [] :: splitCommaData cs
    else
      match splitCommaData cs with
      | [] => [[c]]
      | h :: t => (c :: h) :: t

/-- Python `s.split(',')` on `String`. -/
def splitComma (s : String) : List String :=
  (splitCommaData s.data).map fun l => ⟨l⟩

/-- Python `sep.join(parts)`. -/
def joinWith (sep : String) : List String → String
  | [] => ""
  | [x] => x
  | x :: y :: t => x ++ sep ++ joinWith sep (y :: t)

/-- Models `list(set(xs))`: deduplicate, keeping first occurrences
(CPython's set order is unspecified; nothing proved here uses the order). -/
def dedupAux (seen : List String) : List String → List String
  | [] => []
  | x :: xs =>
    if seen.contains x then dedupAux seen xs
    else x :: dedupAux (x :: seen) xs

def dedup (l : List String) : List String := dedupAux [] l

/-- `len(set(a).intersection(set(b)))`: the number of distinct elements of
`a` that also occur in `b`. -/
def interCount (a b : List String) : Nat :=
  ((dedup a).filter fun x => b.contains x).length

/-! ## Data model -/

/-- One Python exception kind that can escape the embedded functions. -/
inductive PyErr where
  | attributeError
deriving DecidableEq, Repr

/-- A stored text column that the source may feed to `json.loads`:
`raw` is the column value (`none` = SQL NULL), `decoded` is the outcome
of `json.loads raw` — `some v` when `raw` is valid JSON with payload `v`
(in the documented shape), `none` when `json.loads` raises
`JSONDecodeError`. -/
structure RawField (α : Type) where
  raw : Option String
  decoded : Option α
deriving DecidableEq, Repr

/-- One attack or ability object as stored in the JSON columns: the
source reads only the `name` and `text` keys (an absent key and a `None`
value behave identically in every consuming line, so both are `none`). -/
structure AttackEntry where
  name : Option String
  text : Option String
deriving DecidableEq, Repr

/-- One row of the `cards` table (`SELECT * FROM cards`); every column of
the schema is nullable. Columns never read by the analyzer
(`number`, `image_url`, `source`) are omitted. -/
structure Row where
  card_id : Option String
  name : Option String
  supertype : Option String
  subtype : Option String
  hp : Option Int
  types : RawField (List String)
  retreat_cost : Option Int
  attacks : RawField (List AttackEntry)
  abilities : RawField (List AttackEntry)
  rules : RawField (List String)
  expansion : Option String
  rarity : Option String
deriving DecidableEq, Repr

/-- `CardFeatures` dataclass of the source. -/
structure CardFeatures where
  card_id : Option String
  name : Option String
  supertype : Option String
  subtype : Option String
  hp : Option Int
  types : List String
  retreat_cost : Option Int
  attacks : List AttackEntry
  abilities : List AttackEntry
  rules : List String
  expansion : Option String
  rarity : Option String
  semantic_keywords : List String
  numerical_effects : List (String × Nat)
  conditions : List String
  roles : List (String × ℚ)
  pros : List String
  cons : List String
  synergy_tags : List String
deriving DecidableEq, Repr

/-- One recommendation dict
`{'type': …, 'suggestion': …, 'reason': …, 'priority': …}`. -/
structure Recommendation where
  rtype : String
  suggestion : String
  reason : String
  priority : String
deriving DecidableEq, Repr

/-- `archetype_fit` dictionary; its keys are the fixed `ARCHETYPES` list
`['aggro','control','toolbox','engine','midrange','combo','stall']`, in
that insertion order, modelled as a record with one field per key. -/
structure ArchetypeFit where
  aggro : ℚ
  control : ℚ
  toolbox : ℚ
  engine : ℚ
  midrange : ℚ
  combo : ℚ
  stall : ℚ
deriving DecidableEq, Repr

/-- `SynergyAnalysis` dataclass of the source. -/
structure SynergyAnalysis where
  intra_card_score : ℚ
  inter_card_synergies : List (Option String × Option String × ℚ)
  archetype_fit : ArchetypeFit
  recommendations : List Recommendation
deriving DecidableEq, Repr

/-! ## 4.1 Text Normalizer: `_parse_types`, `_parse_attacks`,
`_parse_abilities`, `_parse_rules`, `_combine_card_text` -/

/-- `_parse_types`: empty/NULL → `[]`; `'['`-prefixed → `json.loads`,
falling back to `types_str.split(',')` on `JSONDecodeError`; any other
scalar → the one-element list `[types_str]`. -/
def parse_types (f : RawField (List String)) : List String :=
  match f.raw with
  | none => []
  | some s =>
    if s = "" then []
    else if startsWithBracket s then
      match f.decoded with
      | some xs => xs
      | none => splitComma s
    else [s]

/-- `_parse_attacks`: empty/NULL → `[]`; `'['`-prefixed → `json.loads`,
falling back to `[]` on `JSONDecodeError`; any other scalar → `[]`. -/
def parse_attacks (f : RawField (List AttackEntry)) : List AttackEntry :=
  match f.raw with
  | none => []
  | some s =>
    if s = "" then []
    else if startsWithBracket s then
      match f.decoded with
      | some xs => xs
      | none => []
    else []

/-- `_parse_abilities`: same shape as `_parse_attacks`. -/
def parse_abilities (f : RawField (List AttackEntry)) : List AttackEntry :=
  match f.raw with
  | none => []
  | some s =>
    if s = "" then []
    else if startsWithBracket s then
      match f.decoded with
      | some xs => xs
      | none => []
    else []

/-- `_parse_rules`: empty/NULL → `[]`; `'['`-prefixed → `json.loads`,
falling back to `[rules_str]` on `JSONDecodeError`; any other scalar →
`[rules_str]`. -/
def parse_rules (f : RawField (List String)) : List String :=
  match f.raw with
  | none => []
  | some s =>
    if s = "" then []
    else if startsWithBracket s then
      match f.decoded with
      | some xs => xs
      | none => [s]
    else [s]

/-- The `text`-then-`name` fragments one attack/ability contributes to
the combined card text (a missing key, a `None` value and an empty
string all contribute nothing, exactly as the source's
`if 'text' in attack and attack['text']`). -/
def entryParts (e : AttackEntry) : List String :=
  (match e.text with
   | some t => if t = "" then [] else [t]
   | none => []) ++
  (match e.name with
   | some n => if n = "" then [] else [n]
   | none => [])

/-- `_combine_card_text`: attack fragments, then ability fragments, then
the rule strings, joined by single spaces. -/
def combine_card_text (attacks abilities : List AttackEntry)
    (rules : List String) : String :=
  joinWith " " ((attacks.flatMap entryParts) ++ (abilities.flatMap entryParts) ++ rules)

/-! ## 4.3 Numeric/Condition Extractor -/

/-- Value of a non-empty digit string, as Python `int(match)`. -/
def natOfDigits (ds : List Char) : Nat :=
  ds.foldl (fun a c => a * 10 + (c.toNat - 48)) 0

/-- `re.findall` for a pattern of the shape `kw(\d+)` — a literal keyword
(including its trailing space, e.g. `"draw "`) followed immediately by a
digit run.  The scan moves one character at a time (the regex engine's
leftmost search) and resumes after the end of a match (non-overlapping
matches); the greedy `\d+` takes the maximal digit run. `fuel` only
bounds the recursion and is initialised to more than the text length. -/
def scanKwNum (kw : List Char) : Nat → List Char → List Nat
  | 0, _ => []
  | _ + 1, [] => []
  | fuel + 1, c :: cs =>
    if kw.isPrefixOf (c :: cs) then
      let after := (c :: cs).drop kw.length
      let ds := after.takeWhile Char.isDigit
      if ds.isEmpty then scanKwNum kw fuel cs
      else natOfDigits ds :: scanKwNum kw fuel (after.drop ds.length)
    else scanKwNum kw fuel cs

/-- `re.findall` for a pattern of the shape `(\d+)kw` — a digit run
followed immediately by a literal keyword (including its leading space,
e.g. `" damage"`).  A match attempt at a digit takes the maximal run
(greedy `\d+`); if the keyword does not follow, no match can start
inside the same run either, so stepping one character forward is
exactly the engine's behaviour. -/
def scanNumKw (kw : List Char) : Nat → List Char → List Nat
  | 0, _ => []
  | _ + 1, [] => []
  | fuel + 1, c :: cs =>
    if c.isDigit then
      let ds := (c :: cs).takeWhile Char.isDigit
      let after := (c :: cs).drop ds.length
      if kw.isPrefixOf after then
        natOfDigits ds :: scanNumKw kw fuel (after.drop kw.length)
      else scanNumKw kw fuel cs
    else scanNumKw kw fuel cs

/-- First digit run of `l` together with the remainder after it. -/
def firstDigitRun : List Char → Option (List Char × List Char)
  | [] => none
  | c :: cs =>
    if c.isDigit then
      some ((c :: cs).takeWhile Char.isDigit, (c :: cs).dropWhile Char.isDigit)
    else firstDigitRun cs

/-- The remainder of `l` after the first occurrence of `kw`, if any. -/
def afterFirstSub (kw : List Char) : List Char → Option (List Char)
  | [] => if kw.isEmpty then some [] else none
  | c :: cs =>
    if kw.isPrefixOf (c :: cs) then some ((c :: cs).drop kw.length)
    else afterFirstSub kw cs

/-- `re.findall` for `search.*?(\d+)`: at an occurrence of the keyword the
lazy `.*?` reaches the first following digit run, the greedy `(\d+)`
captures all of it, and the scan resumes after the run. -/
def scanKwGapNum (kw : List Char) : Nat → List Char → List Nat
  | 0, _ => []
  | _ + 1, [] => []
  | fuel + 1, c :: cs =>
    if kw.isPrefixOf (c :: cs) then
      match firstDigitRun ((c :: cs).drop kw.length) with
      | some (ds, rest) => natOfDigits ds :: scanKwGapNum kw fuel rest
      | none => scanKwGapNum kw fuel cs
    else scanKwGapNum kw fuel cs

/-- `re.findall` for `(\d+).*?energy`: at a digit the greedy `(\d+)`
captures the maximal run; the match succeeds iff the keyword occurs
after the run (shrinking the run cannot help, the skipped characters
are digits), the lazy `.*?` stops at the first such occurrence, and the
scan resumes after it. -/
def scanNumGapKw (kw : List Char) : Nat → List Char → List Nat
  | 0, _ => []
  | _ + 1, [] => []
  | fuel + 1, c :: cs =>
    if c.isDigit then
      let ds := (c :: cs).takeWhile Char.isDigit
      match afterFirstSub kw ((c :: cs).drop ds.length) with
      | some rest => natOfDigits ds :: scanNumGapKw kw fuel rest
      | none => scanNumGapKw kw fuel cs
    else scanNumGapKw kw fuel cs

/-- All matches of one of the six fixed numeric patterns in the
lower-cased text. -/
def patternMatches (key : String) (text : String) : List Nat :=
  let t := lowerData text
  let fuel := t.length + 1
  if key = "draw_amount" then scanKwNum "draw ".data fuel t
  else if key = "damage_amount" then scanNumKw " damage".data fuel t
  else if key = "discard_amount" then scanKwNum "discard ".data fuel t
  else if key = "search_amount" then scanKwGapNum "search".data fuel t
  else if key = "energy_cost" then scanNumGapKw "energy".data fuel t
  else if key = "heal_amount" then scanKwNum "heal ".data fuel t
  else []

/-- Python `max(iterable)` over a non-empty list of naturals (the source
only applies it to non-empty match lists). -/
def maxNat (l : List Nat) : Nat := l.foldl max 0

/-- The entry a pattern contributes to `numerical_effects`: absent when
there is no match, otherwise the maximum matched value. -/
def effectEntry (key : String) (text : String) : List (String × Nat) :=
  let ms := patternMatches key text
  if ms.isEmpty then [] else [(key, maxNat ms)]

/-- `_extract_numerical_effects`: empty text → `{}`; otherwise one entry
per matching pattern, in the fixed pattern-dict order, each holding the
maximum of all matches of its pattern. -/
def extract_numerical_effects (text : String) : List (String × Nat) :=
  if text = "" then []
  else
    effectEntry "draw_amount" text ++ effectEntry "damage_amount" text ++
    effectEntry "discard_amount" text ++ effectEntry "search_amount" text ++
    effectEntry "energy_cost" text ++ effectEntry "heal_amount" text

/-- The fixed condition trigger phrases of `_extract_conditions`. -/
def condition_patterns : List String :=
  ["if ", "when ", "once during", "only if", "before you",
   "after you", "during your turn", "flip a coin", "discard"]

/-- Python `s.strip()` restricted to ASCII space (the only whitespace
appearing in the fixed phrases). -/
def stripSpaces (s : String) : String :=
  ⟨(s.data.dropWhile (· = ' ')).reverse.dropWhile (· = ' ') |>.reverse⟩

/-- `_extract_conditions`: each trigger phrase present in the lower-cased
text contributes its stripped text once. -/
def extract_conditions (text : String) : List String :=
  if text = "" then []
  else
    dedup ((condition_patterns.filter fun p =>
      containsSub p.data (lowerData text)).map stripSpaces)

/-! ## 4.2 Semantic Tagger -/

/-- `SEMANTIC_PATTERNS` of the source, in dict order. -/
def SEMANTIC_PATTERNS : List (String × List String) :=
  [("draw", ["draw", "reveal", "look at", "search", "put into hand"]),
   ("damage", ["damage", "knock out", "destroy", "discard", "put damage"]),
   ("energy", ["energy", "attach", "accelerate", "basic energy", "special energy"]),
   ("heal", ["heal", "remove damage", "restore", "recover"]),
   ("disrupt", ["discard", "shuffle", "prevent", "block", "switch"]),
   ("setup", ["bench", "play", "put into play", "evolve", "search"]),
   ("protection", ["prevent", "immune", "resist", "protect", "cannot be"]),
   ("movement", ["switch", "retreat", "return", "move", "swap"])]

/-- `_extract_semantic_keywords`: empty text → `[]`; otherwise each of the
8 categories whose substring list hits the lower-cased text, deduplicated.
The optional spaCy augmentation (extra lemmas/entities, failure swallowed)
is modelled as contributing no tokens; see the file header. -/
def extract_semantic_keywords (text : String) : List String :=
  if text = "" then []
  else
    dedup (SEMANTIC_PATTERNS.filterMap fun cp =>
      if cp.2.any (fun p => containsSub p.data (lowerData text)) then some cp.1
      else none)

/-! ## 4.4 Role Classifier -/

/-- `effects.get(key, d)` on the numerical-effects dict. -/
def effGet (effs : List (String × Nat)) (key : String) (d : Nat) : Nat :=
  (effs.lookup key).getD d

/-- `card_data.get('hp', 0) or 0` (and likewise for `retreat_cost`):
a NULL column and the value 0 both give 0. -/
def intOrZero (v : Option Int) : Int := v.getD 0

/-- `_categorize_pokemon_roles`: raw (un-normalized) role confidences for
a Pokémon card.  Each `if` of the source assigns one fresh dict key, so
the resulting dict is the concatenation of the conditional one-entry
pieces in the source's assignment order. -/
def categorize_pokemon_roles (row : Row) (keywords : List String)
    (effects : List (String × Nat)) : List (String × ℚ) :=
  let hp := intOrZero row.hp
  let retreat_cost := intOrZero row.retreat_cost
  (if hp ≥ 200 ∨ effGet effects "damage_amount" 0 ≥ 150 then
      [("main_attacker", 8/10)]
    else if hp ≥ 120 ∨ effGet effects "damage_amount" 0 ≥ 80 then
      [("secondary_attacker", 6/10)]
    else []) ++
  (if keywords.contains "draw" ∨ keywords.contains "search" then
      [("setup_pokemon", 7/10)] else []) ++
  (if hp ≥ 200 ∨ keywords.contains "protection" ∨ keywords.contains "heal" then
      [("wall", 6/10)] else []) ++
  (if retreat_cost = 0 ∨ keywords.contains "movement" then
      [("pivot", 7/10)] else []) ++
  (if keywords.contains "energy" ∧ keywords.contains "attach" then
      [("energy_acceleration", 8/10)] else []) ++
  (if effGet effects "draw_amount" 0 ≥ 2 then
      [("draw_engine", 7/10)] else []) ++
  (if keywords.contains "disrupt" ∨ effGet effects "discard_amount" 0 > 0 then
      [("disruptor", 6/10)] else [])

/-- `_categorize_trainer_roles`: raw role confidences for a Trainer card.
`card_data.get('subtype', '').lower()` raises `AttributeError` when the
column is NULL (`None.lower()`); the exception escapes this function. -/
def categorize_trainer_roles (row : Row) (keywords : List String)
    (effects : List (String × Nat)) : Except PyErr (List (String × ℚ)) :=
  match row.subtype with
  | none => .error .attributeError
  | some sub0 =>
    let subtype : List Char := lowerData sub0
    if subtype = "supporter".data then
      if keywords.contains "draw" ∨ effGet effects "draw_amount" 0 > 0 then
        .ok [("draw_supporter", 9/10)]
      else if keywords.contains "search" then .ok [("search_supporter", 8/10)]
      else if keywords.contains "disrupt" then .ok [("disruption_supporter", 7/10)]
      else .ok []
    else if subtype = "item".data then
      if keywords.contains "search" then .ok [("search_item", 8/10)]
      else if keywords.contains "draw" then .ok [("draw_item", 7/10)]
      else .ok [("utility_item", 6/10)]
    else if subtype = "pokémon tool".data then .ok [("tool", 9/10)]
    else if subtype = "stadium".data then .ok [("stadium", 9/10)]
    else .ok []

/-- `_categorize_energy_roles`: raw role confidences for an Energy card.
`card_data.get('name', '').lower()` raises `AttributeError` when the
column is NULL; the exception escapes this function. -/
def categorize_energy_roles (row : Row) (keywords : List String)
    (_effects : List (String × Nat)) : Except PyErr (List (String × ℚ)) :=
  match row.name with
  | none => .error .attributeError
  | some name0 =>
    let name : List Char := lowerData name0
    if containsSub "basic".data name ∧ containsSub "energy".data name then
      .ok [("basic_energy", 9/10)]
    else
      .ok ([("special_energy", 8/10)] ++
        (if keywords.contains "acceleration" ∨ keywords.contains "attach" then
          [("acceleration", 7/10)] else []) ++
        (if ["draw", "heal", "protection"].any (fun k => keywords.contains k) then
          [("utility", 6/10)] else []))

/-- Sum of the confidence values of a role mapping. -/
def sumVals (roles : List (String × ℚ)) : ℚ := (roles.map Prod.snd).sum

/-- The normalization step of `_categorize_card_roles`:
`roles = {role: score/total}` when `total > 0`, unchanged otherwise. -/
def normalizeRoles (roles : List (String × ℚ)) : List (String × ℚ) :=
  if 0 < sumVals roles then roles.map (fun p => (p.1, p.2 / sumVals roles))
  else roles

/-- The supertype dispatch inside the `try` block of
`_categorize_card_roles` (an unknown supertype leaves the empty dict). -/
def roles_dispatch (row : Row) (st : List Char) (keywords : List String)
    (effects : List (String × Nat)) : Except PyErr (List (String × ℚ)) :=
  if st = "pokémon".data then .ok (categorize_pokemon_roles row keywords effects)
  else if st = "trainer".data then categorize_trainer_roles row keywords effects
  else if st = "energy".data then categorize_energy_roles row keywords effects
  else .ok []

/-- `_categorize_card_roles`: `card_data.get('supertype', '').lower()`
raises `AttributeError` on a NULL column *before* the `try` block, so
that exception escapes; an exception inside the dispatch is caught and
yields the empty mapping; otherwise the raw confidences are normalized
to sum to 1. -/
def categorize_card_roles (row : Row) (keywords : List String)
    (effects : List (String × Nat)) : Except PyErr (List (String × ℚ)) :=
  match row.supertype with
  | none => .error .attributeError
  | some st0 =>
    match roles_dispatch row (lowerData st0) keywords effects with
    | .error _ => .ok []
    | .ok roles => .ok (normalizeRoles roles)

/-! ## 4.5 Pros/Cons Evaluator -/

/-- `_analyze_pros_cons`.  The whole body is inside a `try` whose
`except` returns whatever was accumulated:
* a NULL supertype raises at `supertype.lower()` before anything is
  appended, giving `([], [])`;
* the line `'flip a coin' in ' '.join(effects.get('conditions', []))`
  looks the string key `"conditions"` up in the *numerical-effects*
  mapping.  When it is absent the joined string is empty and the test is
  `False`; if it were present its integer value would make `' '.join`
  raise `TypeError`, caught by the `except`, returning the lists built
  so far.  Either way the coin-flip con is never appended. -/
def analyze_pros_cons (row : Row) (keywords : List String)
    (effects : List (String × Nat)) : List String × List String :=
  match row.supertype with
  | none => ([], [])
  | some st0 =>
    let hp := intOrZero row.hp
    let retreat_cost := intOrZero row.retreat_cost
    let st := lowerData st0
    let damage : Nat := effGet effects "damage_amount" 0
    let pros : List String :=
      (if st = "pokémon".data ∧ hp ≥ 250 then ["Very high HP for survivability"]
       else if st = "pokémon".data ∧ hp ≥ 180 then ["Good HP for tanking hits"]
       else []) ++
      (if st = "pokémon".data ∧ retreat_cost = 0 then
        ["Free retreat for easy pivoting"] else []) ++
      (if st = "pokémon".data ∧ damage ≥ 200 then ["High damage output"]
       else if st = "pokémon".data ∧ ¬ damage ≥ 200 ∧ damage ≥ 120 then
        ["Decent damage for prizes"]
       else []) ++
      (if keywords.contains "draw" then
        if effGet effects "draw_amount" 1 ≥ 3 then
          ["Strong draw power (" ++ toString (effGet effects "draw_amount" 1) ++ " cards)"]
        else ["Provides card draw"]
       else []) ++
      (if keywords.contains "search" then ["Tutoring effect for consistency"] else []) ++
      (if keywords.contains "energy" ∧ keywords.contains "attach" then
        ["Energy acceleration capability"] else []) ++
      (if keywords.contains "protection" then ["Defensive capabilities"] else []) ++
      (if keywords.contains "disrupt" then ["Disruption potential"] else [])
    let cons : List String :=
      (if st = "pokémon".data ∧ ¬ hp ≥ 250 ∧ ¬ hp ≥ 180 ∧ hp ≤ 70 then
        ["Low HP, vulnerable to knockouts"] else []) ++
      (if st = "pokémon".data ∧ ¬ retreat_cost = 0 ∧ retreat_cost ≥ 3 then
        ["High retreat cost limits mobility"] else []) ++
      (if st = "pokémon".data ∧ ¬ damage ≥ 200 ∧ ¬ damage ≥ 120 ∧ damage ≤ 60 then
        ["Low damage output"] else []) ++
      (match effects.lookup "conditions" with
       | some _ => []
       | none =>
        if effGet effects "discard_amount" 0 > 0 then
          ["Requires discarding resources"] else [])
    (pros, cons)

/-! ## 4.6 Synergy Tag Generator -/

/-- `_generate_synergy_tags`: types, then `{kw}_synergy` for each keyword
in the fixed five, then `{supertype.lower()}_synergy`, deduplicated.
`supertype.lower()` raises `AttributeError` when the value is `None`. -/
def generate_synergy_tags (keywords : List String) (supertype : Option String)
    (types : List String) : Except PyErr (List String) :=
  match supertype with
  | none => .error .attributeError
  | some st =>
    let tags := types
    let tags := tags ++
      (keywords.filter fun k =>
        ["draw", "search", "energy", "heal", "disrupt"].contains k).map
        (fun k => k ++ "_synergy")
    let tags := tags ++ [(⟨lowerData st⟩ : String) ++ "_synergy"]
    .ok (dedup tags)

/-! ## Feature extraction driver -/

/-- `_extract_single_card_features`.  Parsing, text combination and the
extractors are total; role categorization and synergy-tag generation can
raise (NULL `supertype`), and `_extract_single_card_features` re-raises
any such exception after logging it. -/
def extract_single_card_features (row : Row) : Except PyErr CardFeatures := do
  let types := parse_types row.types
  let attacks := parse_attacks row.attacks
  let abilities := parse_abilities row.abilities
  let rules := parse_rules row.rules
  let all_text := combine_card_text attacks abilities rules
  let semantic_keywords := extract_semantic_keywords all_text
  let numerical_effects := extract_numerical_effects all_text
  let conditions := extract_conditions all_text
  let roles ← categorize_card_roles row semantic_keywords numerical_effects
  let pc := analyze_pros_cons row semantic_keywords numerical_effects
  let synergy_tags ← generate_synergy_tags semantic_keywords row.supertype types
  return { card_id := row.card_id, name := row.name,
           supertype := row.supertype, subtype := row.subtype,
           hp := row.hp, types := types, retreat_cost := row.retreat_cost,
           attacks := attacks, abilities := abilities, rules := rules,
           expansion := row.expansion, rarity := row.rarity,
           semantic_keywords := semantic_keywords,
           numerical_effects := numerical_effects,
           conditions := conditions, roles := roles,
           pros := pc.1, cons := pc.2, synergy_tags := synergy_tags }

/-- `extract_card_features(card_id=None)`: select the matching rows
(`WHERE card_id = ?` when a truthy id is given — the empty string is
falsy and selects all rows; SQL `NULL` matches nothing) and extract
features row by row; the first exception raised for a row propagates
out of the whole call (`except … raise`). -/
def extract_card_features (store : List Row) (card_id : Option String) :
    Except PyErr (List CardFeatures) :=
  let rows := match card_id with
    | some cid => if cid = "" then store
        else store.filter fun r => r.card_id = some cid
    | none => store
  rows.mapM extract_single_card_features

/-! ## 4.7 Synergy Engine -/

/-- The name→features lookup `{features.name: features for features in
card_features}`: a later card with the same name overwrites an earlier
one, so the lookup finds the last match. -/
def cardLookup (card_features : List CardFeatures) (n : String) :
    Option CardFeatures :=
  card_features.reverse.find? fun f => f.name = some n

/-- The expanded deck-card list of `detect_synergies`: every matched
decklist entry contributes `quantity` copies of its features; unmatched
names contribute nothing. -/
def deck_cards_of (decklist : List (String × Nat))
    (card_features : List CardFeatures) : List CardFeatures :=
  decklist.flatMap fun p =>
    match cardLookup card_features p.1 with
    | some f => List.replicate p.2 f
    | none => []

/-- Keyword set (as a deduplicated list) of the `text` fields of a
card's abilities or attacks, as accumulated by
`_calculate_intra_card_synergy` (`ability.get('text', '')`). -/
def entryKeywordSet (entries : List AttackEntry) : List String :=
  dedup (entries.flatMap fun e => extract_semantic_keywords (e.text.getD ""))

/-- Per-card ability/attack keyword-overlap score:
`overlap / max(len(ability_kw), len(attack_kw), 1)`. -/
def intraCardScore (card : CardFeatures) : ℚ :=
  let ability_keywords := entryKeywordSet card.abilities
  let attack_keywords := entryKeywordSet card.attacks
  (interCount ability_keywords attack_keywords : ℚ) /
    (max (max ability_keywords.length attack_keywords.length) 1 : ℚ)

/-- `_calculate_intra_card_synergy`: average of the per-card scores over
the cards having both abilities and attacks (`0` when none qualify). -/
def calculate_intra_card_synergy (deck_cards : List CardFeatures) : ℚ :=
  let qualifying := deck_cards.filter fun c => ¬ c.abilities.isEmpty ∧ ¬ c.attacks.isEmpty
  ((qualifying.map intraCardScore).sum) / (max qualifying.length 1 : ℚ)

/-- The fixed complementary role pairs of `_are_roles_complementary`. -/
def complementary_pairs : List (String × String) :=
  [("main_attacker", "setup_pokemon"),
   ("main_attacker", "energy_acceleration"),
   ("draw_engine", "main_attacker"),
   ("search_item", "main_attacker"),
   ("wall", "pivot")]

/-- `_are_roles_complementary`: some fixed pair occurs with one role in
each card's role mapping (in either orientation). -/
def are_roles_complementary (roles1 roles2 : List (String × ℚ)) : Bool :=
  complementary_pairs.any fun p =>
    ((roles1.map Prod.fst).contains p.1 && (roles2.map Prod.fst).contains p.2) ||
    ((roles1.map Prod.fst).contains p.2 && (roles2.map Prod.fst).contains p.1)

/-- `_calculate_pair_synergy`: 0.2·|tag∩tag| + 0.4·complementary +
0.3·(both Pokémon with a shared type) + 0.1·|keyword∩keyword|,
capped at 1.0. -/
def calculate_pair_synergy (card1 card2 : CardFeatures) : ℚ :=
  let s : ℚ := (interCount card1.synergy_tags card2.synergy_tags : ℚ) * (2/10)
  let s := if are_roles_complementary card1.roles card2.roles then s + 4/10 else s
  let s := if card1.supertype = some "Pokémon" ∧ card2.supertype = some "Pokémon" ∧
      interCount card1.types card2.types ≠ 0 then s + 3/10 else s
  let s := s + (interCount card1.semantic_keywords card2.semantic_keywords : ℚ) * (1/10)
  min s 1

/-- One retained synergy entry `(card1.name, card2.name, score)`. -/
abbrev SynergyEntry := Option String × Option String × ℚ

/-- The collection loop of `_calculate_inter_card_synergies`: all ordered
pairs `(i, j)` with `i < j`, skipping pairs with equal `card_id`,
keeping the pair when its score exceeds 0.3. -/
def collectSynergies : List CardFeatures → List SynergyEntry
  | [] => []
  | c :: rest =>
    (rest.filterMap fun c2 =>
      if c.card_id ≠ c2.card_id then
        if calculate_pair_synergy c c2 > 3/10 then
          some (c.name, c2.name, calculate_pair_synergy c c2)
        else none
      else none)
    ++ collectSynergies rest

/-- Stable descending insertion by score: the new element goes before
existing elements of equal score that came later in the original list
order — together with `sortSynergiesDesc` this models Python's stable
`list.sort(key=…, reverse=True)`; only sortedness and membership are
used in the proofs. -/
def insertSynergyDesc (x : SynergyEntry) : List SynergyEntry → List SynergyEntry
  | [] => [x]
  | y :: ys => if x.2.2 < y.2.2 then y :: insertSynergyDesc x ys else x :: y :: ys

def sortSynergiesDesc : List SynergyEntry → List SynergyEntry
  | [] => []
  | x :: xs => insertSynergyDesc x (sortSynergiesDesc xs)

/-- `_calculate_inter_card_synergies`: collect, sort descending by score,
truncate to the top 10. -/
def calculate_inter_card_synergies (deck_cards : List CardFeatures) :
    List SynergyEntry :=
  (sortSynergiesDesc (collectSynergies deck_cards)).take 10

/-- Number of deck cards whose role mapping contains `role` (the source
iterates the keys of each card's `roles` dict, so one card counts once
per role it carries). -/
def roleCount (deck_cards : List CardFeatures) (role : String) : Nat :=
  (deck_cards.filter fun c => (c.roles.map Prod.fst).contains role).length

/-- `max(archetype_scores.values())` at the point where `midrange` is
still 0: the running maximum over the seven current values in insertion
order. -/
def maxScores (f : ArchetypeFit) : ℚ :=
  max (max (max (max (max (max f.aggro f.control) f.toolbox) f.engine) f.midrange) f.combo) f.stall

/-- `_evaluate_archetype_fit`: an empty deck keeps every score at 0;
otherwise each archetype is a capped role-count ratio and `midrange` is
the residual `max(1 − max(others), 0)`. -/
def evaluate_archetype_fit (deck_cards : List CardFeatures) : ArchetypeFit :=
  if deck_cards.length = 0 then
    { aggro := 0, control := 0, toolbox := 0, engine := 0,
      midrange := 0, combo := 0, stall := 0 }
  else
    let total : ℚ := deck_cards.length
    let aggro := min (((roleCount deck_cards "main_attacker" +
      roleCount deck_cards "secondary_attacker" : Nat) : ℚ) / total) 1
    let control := min (((roleCount deck_cards "disruptor" +
      roleCount deck_cards "draw_engine" + roleCount deck_cards "wall" : Nat) : ℚ) / total) 1
    let engine := min (((roleCount deck_cards "draw_engine" +
      roleCount deck_cards "setup_pokemon" + roleCount deck_cards "search_item" : Nat) : ℚ) / total) 1
    let toolbox := min (((roleCount deck_cards "utility" +
      roleCount deck_cards "tech" + roleCount deck_cards "pivot" : Nat) : ℚ) / total) 1
    let combo := min ((roleCount deck_cards "energy_acceleration" : ℚ) / total) 1
    let stall := min (((roleCount deck_cards "wall" +
      roleCount deck_cards "heal" : Nat) : ℚ) / total) 1
    let partial_fit : ArchetypeFit :=
      { aggro := aggro, control := control, toolbox := toolbox,
        engine := engine, midrange := 0, combo := combo, stall := stall }
    { partial_fit with midrange := max (1 - maxScores partial_fit) 0 }

/-- `max(archetype_fit.items(), key=lambda x: x[1])[0]`: Python's `max`
keeps the first item when later items are not strictly greater, so this
is the first archetype (in `ARCHETYPES` insertion order) attaining the
maximum score. -/
def argmaxFirst (cur : String × ℚ) : List (String × ℚ) → String × ℚ
  | [] => cur
  | x :: xs => argmaxFirst (if x.2 > cur.2 then x else cur) xs

def primary_archetype (f : ArchetypeFit) : String :=
  (argmaxFirst ("aggro", f.aggro)
    [("control", f.control), ("toolbox", f.toolbox), ("engine", f.engine),
     ("midrange", f.midrange), ("combo", f.combo), ("stall", f.stall)]).1

/-- The fixed recommendation records of `_generate_deck_recommendations`. -/
def recMoreAttackers : Recommendation :=
  ⟨"inclusion", "Add more main attackers",
   "Aggro decks need consistent attacking threats", "high"⟩

def recEnergyAccel : Recommendation :=
  ⟨"inclusion", "Include energy acceleration",
   "Speed up setup for aggressive plays", "medium"⟩

def recDrawPower : Recommendation :=
  ⟨"inclusion", "Add more draw power",
   "Control decks need card advantage", "high"⟩

def recDisruption : Recommendation :=
  ⟨"inclusion", "Include disruption cards",
   "Disrupt opponent strategy and buy time", "high"⟩

def recSetup : Recommendation :=
  ⟨"inclusion", "Add setup Pokémon",
   "Engine decks need consistent setup", "high"⟩

def recPivot : Recommendation :=
  ⟨"inclusion", "Consider pivot Pokémon",
   "Improve board positioning and retreat options", "low"⟩

def recExclusion (names : String) : Recommendation :=
  ⟨"exclusion", "Consider removing: " ++ names,
   "These cards have limited synergy with the deck", "medium"⟩

/-- `', '.join(set(low_synergy_cards[:3]))`: joins the deduplicated first
three names; `none` when one of them is SQL NULL, in which case the
join raises `TypeError` (caught by the surrounding `except`, which
returns the recommendations accumulated so far). -/
def joinNames (names : List (Option String)) : Option String :=
  if names.all Option.isSome then
    some (joinWith ", " (dedup (names.filterMap id)))
  else none

/-- `_generate_deck_recommendations`: archetype-specific rules keyed by
the primary archetype, then the universal pivot rule, then the batched
low-synergy exclusion suggestion. -/
def generate_deck_recommendations (deck_cards : List CardFeatures)
    (archetype_fit : ArchetypeFit) : List Recommendation :=
  let primary := primary_archetype archetype_fit
  let total : ℚ := deck_cards.length
  let recs : List Recommendation := []
  let recs := if primary = "aggro" then
      (if (roleCount deck_cards "main_attacker" : ℚ) < total * (3/10) then
        recs ++ [recMoreAttackers] else recs) ++
      (if roleCount deck_cards "energy_acceleration" < 2 then [recEnergyAccel] else [])
    else if primary = "control" then
      (if roleCount deck_cards "draw_engine" < 4 then
        recs ++ [recDrawPower] else recs) ++
      (if roleCount deck_cards "disruptor" < 2 then [recDisruption] else [])
    else if primary = "engine" then
      if roleCount deck_cards "setup_pokemon" < 2 then recs ++ [recSetup] else recs
    else recs
  let recs := if roleCount deck_cards "pivot" = 0 then recs ++ [recPivot] else recs
  let low_synergy_cards := (deck_cards.filter fun c =>
    c.synergy_tags.length < 2).map (fun c => c.name)
  if low_synergy_cards.isEmpty then recs
  else
    match joinNames (low_synergy_cards.take 3) with
    | some s => recs ++ [recExclusion s]
    | none => recs

/-- `detect_synergies`. -/
def detect_synergies (decklist : List (String × Nat))
    (card_features : List CardFeatures) : SynergyAnalysis :=
  let deck_cards := deck_cards_of decklist card_features
  let archetype_fit := evaluate_archetype_fit deck_cards
  { intra_card_score := calculate_intra_card_synergy deck_cards
    inter_card_synergies := calculate_inter_card_synergies deck_cards
    archetype_fit := archetype_fit
    recommendations := generate_deck_recommendations deck_cards archetype_fit }

/-! ## Helper lemmas -/

/-- Scores are descending along the synergy list. -/
def ScoresDesc (l : List SynergyEntry) : Prop :=
  l.Pairwise fun a b => b.2.2 ≤ a.2.2

theorem mem_insertSynergyDesc {x y : SynergyEntry} {l : List SynergyEntry}
    (h : y ∈ insertSynergyDesc x l) : y = x ∨ y ∈ l := by
  induction l with
  | nil => simpa [insertSynergyDesc] using h
  | cons z zs ih =>
    rw [insertSynergyDesc] at h
    split at h
    · rcases List.mem_cons.1 h with rfl | h
      · exact Or.inr (List.mem_cons_self _ _)
      · rcases ih h with h | h
        · exact Or.inl h
        · exact Or.inr (List.mem_cons_of_mem _ h)
    · rcases List.mem_cons.1 h with rfl | h
      · exact Or.inl rfl
      · exact Or.inr h

theorem scoresDesc_insert {x : SynergyEntry} {l : List SynergyEntry}
    (h : ScoresDesc l) : ScoresDesc (insertSynergyDesc x l) := by
  induction l with
  | nil => simp [insertSynergyDesc, ScoresDesc]
  | cons z zs ih =>
    rw [ScoresDesc, List.pairwise_cons] at h
    rw [insertSynergyDesc]
    split
    · rw [ScoresDesc, List.pairwise_cons]
      refine ⟨fun y hy => ?_, ih h.2⟩
      rcases mem_insertSynergyDesc hy with rfl | hy
      · linarith
      · exact h.1 y hy
    · rw [ScoresDesc, List.pairwise_cons]
      refine ⟨fun y hy => ?_, List.pairwise_cons.2 h⟩
      rcases List.mem_cons.1 hy with rfl | hy
      · linarith
      · have := h.1 y hy
        linarith

theorem mem_sortSynergiesDesc {y : SynergyEntry} {l : List SynergyEntry}
    (h : y ∈ sortSynergiesDesc l) : y ∈ l := by
  induction l with
  | nil => simpa [sortSynergiesDesc] using h
  | cons z zs ih =>
    rw [sortSynergiesDesc] at h
    rcases mem_insertSynergyDesc h with rfl | h
    · simp
    · simp [ih h]

theorem scoresDesc_sort (l : List SynergyEntry) :
    ScoresDesc (sortSynergiesDesc l) := by
  induction l with
  | nil => simp [sortSynergiesDesc, ScoresDesc]
  | cons z zs ih => exact scoresDesc_insert ih

theorem calculate_pair_synergy_le_one (c1 c2 : CardFeatures) :
    calculate_pair_synergy c1 c2 ≤ 1 := by
  simp only [calculate_pair_synergy]
  exact min_le_right _ _

theorem collectSynergies_score {deck : List CardFeatures}
    {e : SynergyEntry} (h : e ∈ collectSynergies deck) :
    3/10 < e.2.2 ∧ e.2.2 ≤ 1 := by
  induction deck with
  | nil => simp [collectSynergies] at h
  | cons c rest ih =>
    rw [collectSynergies, List.mem_append] at h
    rcases h with h | h
    · obtain ⟨c2, _, hfa⟩ := List.mem_filterMap.1 h
      by_cases h1 : c.card_id ≠ c2.card_id
      · rw [if_pos h1] at hfa
        by_cases h2 : calculate_pair_synergy c c2 > 3/10
        · rw [if_pos h2] at hfa
          obtain rfl := Option.some.inj hfa
          exact ⟨h2, calculate_pair_synergy_le_one c c2⟩
        · rw [if_neg h2] at hfa
          cases hfa
      · rw [if_neg h1] at hfa
        cases hfa
    · exact ih h

/-! ## C4 -/

/-- C4 — For every decklist and feature set (hence for every expanded
deck-card list), `inter_card_synergies` is sorted descending by score,
has at most 10 entries, and every entry's score lies in (0.3, 1.0]. -/
theorem C4_inter_synergies_sorted_bounded (deck_cards : List CardFeatures) :
    ScoresDesc (calculate_inter_card_synergies deck_cards) ∧
    (calculate_inter_card_synergies deck_cards).length ≤ 10 ∧
    ∀ e ∈ calculate_inter_card_synergies deck_cards,
      3/10 < e.2.2 ∧ e.2.2 ≤ 1 := by
  refine ⟨?_, ?_, ?_⟩
  · exact (scoresDesc_sort (collectSynergies deck_cards)).sublist
      (List.take_sublist 10 _)
  · simpa [calculate_inter_card_synergies] using
      List.length_take_le 10 (sortSynergiesDesc (collectSynergies deck_cards))
  · intro e he
    exact collectSynergies_score (mem_sortSynergiesDesc (List.mem_of_mem_take he))

/-! ## C5 helpers -/

theorem mem_cond_single {p : String × ℚ} {c : Prop} [Decidable c]
    {k : String} {v : ℚ} (h : p ∈ (if c then [(k, v)] else [])) :
    p = (k, v) := by
  split at h <;> simp_all

theorem mem_cond_double {p : String × ℚ} {c d : Prop} [Decidable c] [Decidable d]
    {k1 k2 : String} {v1 v2 : ℚ}
    (h : p ∈ (if c then [(k1, v1)] else if d then [(k2, v2)] else [])) :
    p = (k1, v1) ∨ p = (k2, v2) := by
  split at h
  · simp_all
  · exact Or.inr (mem_cond_single h)

theorem pokemon_roles_pos (row : Row) (kws : List String)
    (effs : List (String × Nat)) :
    ∀ p ∈ categorize_pokemon_roles row kws effs, 0 < p.2 := by
  intro p hp
  simp only [categorize_pokemon_roles, List.append_assoc, List.mem_append] at hp
  rcases hp with h | h | h | h | h | h | h
  · rcases mem_cond_double h with rfl | rfl <;> norm_num
  all_goals rw [mem_cond_single h]; norm_num

theorem trainer_roles_pos (row : Row) (kws : List String)
    (effs : List (String × Nat)) (b : List (String × ℚ))
    (h : categorize_trainer_roles row kws effs = .ok b) :
    ∀ p ∈ b, 0 < p.2 := by
  intro p hp
  rw [categorize_trainer_roles] at h
  rcases hsub : row.subtype with _ | sub0
  · simp only [hsub] at h
    cases h
  · simp only [hsub] at h
    split_ifs at h <;> obtain rfl := Except.ok.inj h <;> simp_all <;> norm_num

theorem energy_roles_pos (row : Row) (kws : List String)
    (effs : List (String × Nat)) (b : List (String × ℚ))
    (h : categorize_energy_roles row kws effs = .ok b) :
    ∀ p ∈ b, 0 < p.2 := by
  intro p hp
  rw [categorize_energy_roles] at h
  rcases hn : row.name with _ | name0
  · simp only [hn] at h
    cases h
  · simp only [hn] at h
    split_ifs at h <;> obtain rfl := Except.ok.inj h <;> simp_all <;>
      first
      | (rcases hp with rfl | rfl | rfl <;> norm_num)
      | (rcases hp with rfl | rfl <;> norm_num)
      | (rcases hp with rfl <;> norm_num)
      | norm_num

theorem dispatch_roles_pos (row : Row) (st : List Char) (kws : List String)
    (effs : List (String × Nat)) (b : List (String × ℚ))
    (h : roles_dispatch row st kws effs = .ok b) :
    ∀ p ∈ b, 0 < p.2 := by
  rw [roles_dispatch] at h
  split_ifs at h
  · obtain rfl := Except.ok.inj h
    exact pokemon_roles_pos row kws effs
  · exact trainer_roles_pos row kws effs b h
  · exact energy_roles_pos row kws effs b h
  · obtain rfl := Except.ok.inj h
    simp

theorem sumVals_cons (p : String × ℚ) (l : List (String × ℚ)) :
    sumVals (p :: l) = p.2 + sumVals l := by
  simp [sumVals]

theorem sumVals_nonneg {l : List (String × ℚ)} (h : ∀ p ∈ l, 0 ≤ p.2) :
    0 ≤ sumVals l := by
  induction l with
  | nil => simp [sumVals]
  | cons q t ih =>
    rw [sumVals_cons]
    have hq := h q (List.mem_cons_self q t)
    have ht := ih fun p hp => h p (List.mem_cons_of_mem q hp)
    linarith

theorem sumVals_pos {l : List (String × ℚ)} (hne : l ≠ [])
    (h : ∀ p ∈ l, 0 < p.2) : 0 < sumVals l := by
  cases l with
  | nil => exact absurd rfl hne
  | cons q t =>
    rw [sumVals_cons]
    have hq := h q (List.mem_cons_self q t)
    have ht : 0 ≤ sumVals t :=
      sumVals_nonneg fun p hp => (h p (List.mem_cons_of_mem q hp)).le
    linarith

theorem snd_le_sumVals {l : List (String × ℚ)} (h : ∀ p ∈ l, 0 ≤ p.2)
    {q : String × ℚ} (hq : q ∈ l) : q.2 ≤ sumVals l := by
  induction l with
  | nil => cases hq
  | cons r t ih =>
    rw [sumVals_cons]
    rcases List.mem_cons.1 hq with hq | hq
    · have ht : 0 ≤ sumVals t :=
        sumVals_nonneg fun p hp => h p (List.mem_cons_of_mem r hp)
      rw [hq]
      linarith
    · have hr := h r (List.mem_cons_self r t)
      have := ih (fun p hp => h p (List.mem_cons_of_mem r hp)) hq
      linarith

theorem sumVals_map_div (l : List (String × ℚ)) (t : ℚ) :
    sumVals (l.map fun p => (p.1, p.2 / t)) = sumVals l / t := by
  induction l with
  | nil => simp [sumVals]
  | cons q rest ih =>
    simp only [List.map_cons, sumVals_cons] at *
    rw [ih, add_div]

/-! ## C5 -/

/-- C5 — Whenever role classification succeeds with a non-empty mapping,
every confidence lies in [0, 1] and the confidences sum to 1 (hence to 1
within the claimed 1e-9 tolerance); the empty mapping (the other
possible outcome) is excluded by hypothesis. -/
theorem C5_roles_normalized (row : Row) (kws : List String)
    (effs : List (String × Nat)) (roles : List (String × ℚ))
    (hok : categorize_card_roles row kws effs = .ok roles)
    (hne : roles ≠ []) :
    (∀ p ∈ roles, 0 ≤ p.2 ∧ p.2 ≤ 1) ∧
    |sumVals roles - 1| ≤ 1 / 1000000000 := by
  rw [categorize_card_roles] at hok
  rcases hst : row.supertype with _ | st0
  · simp only [hst] at hok
    cases hok
  · simp only [hst] at hok
    rcases hd : roles_dispatch row (lowerData st0) kws effs with e | b <;>
      simp only [hd] at hok
    · obtain rfl := Except.ok.inj hok
      exact absurd rfl hne
    · obtain rfl := Except.ok.inj hok
      have hpos : ∀ p ∈ b, 0 < p.2 := dispatch_roles_pos row _ kws effs b hd
      have hbne : b ≠ [] := by
        intro hb
        apply hne
        rw [hb]
        simp [normalizeRoles, sumVals]
      have hs : 0 < sumVals b := sumVals_pos hbne hpos
      rw [normalizeRoles, if_pos hs]
      constructor
      · intro p hp
        obtain ⟨q, hq, rfl⟩ := List.mem_map.1 hp
        constructor
        · exact div_nonneg (hpos q hq).le hs.le
        · rw [div_le_one hs]
          exact snd_le_sumVals (fun p hp => (hpos p hp).le) hq
      · rw [sumVals_map_div, div_self hs.ne.symm]
        norm_num

/-- C5 witness: a Stadium trainer card; classification yields the
singleton mapping `{'stadium': 1}`. -/
def stadiumRow : Row :=
  ⟨some "sv1-1", some "Test Stadium", some "Trainer", some "Stadium", none,
   ⟨none, none⟩, none, ⟨none, none⟩, ⟨none, none⟩, ⟨none, none⟩,
   some "SV", some "Rare"⟩

theorem C5_roles_normalized_witness :
    categorize_card_roles stadiumRow [] [] = .ok [("stadium", (9:ℚ)/10 / (9/10))] ∧
    ((∀ p ∈ [("stadium", (9:ℚ)/10 / (9/10))], 0 ≤ p.2 ∧ p.2 ≤ 1) ∧
      |sumVals [("stadium", (9:ℚ)/10 / (9/10))] - 1| ≤ 1 / 1000000000) :=
  ⟨by simp [categorize_card_roles, stadiumRow, roles_dispatch, lowerData,
      lowerChar, categorize_trainer_roles, normalizeRoles, sumVals] <;> norm_num,
   C5_roles_normalized stadiumRow [] [] _
     (by simp [categorize_card_roles, stadiumRow, roles_dispatch, lowerData,
        lowerChar, categorize_trainer_roles, normalizeRoles, sumVals] <;> norm_num)
     (by simp)⟩

/-! ## C10 helpers -/

theorem pokemon_roles_no_heal (row : Row) (kws : List String)
    (effs : List (String × Nat)) :
    ∀ p ∈ categorize_pokemon_roles row kws effs, p.1 ≠ "heal" := by
  intro p hp
  simp only [categorize_pokemon_roles, List.append_assoc, List.mem_append] at hp
  rcases hp with h | h | h | h | h | h | h
  · rcases mem_cond_double h with rfl | rfl <;> simp
  all_goals rw [mem_cond_single h]; simp

theorem trainer_roles_no_heal (row : Row) (kws : List String)
    (effs : List (String × Nat)) (b : List (String × ℚ))
    (h : categorize_trainer_roles row kws effs = .ok b) :
    ∀ p ∈ b, p.1 ≠ "heal" := by
  intro p hp
  rw [categorize_trainer_roles] at h
  rcases hsub : row.subtype with _ | sub0
  · simp only [hsub] at h
    cases h
  · simp only [hsub] at h
    split_ifs at h <;> obtain rfl := Except.ok.inj h <;> simp_all

theorem energy_roles_no_heal (row : Row) (kws : List String)
    (effs : List (String × Nat)) (b : List (String × ℚ))
    (h : categorize_energy_roles row kws effs = .ok b) :
    ∀ p ∈ b, p.1 ≠ "heal" := by
  intro p hp
  rw [categorize_energy_roles] at h
  rcases hn : row.name with _ | name0
  · simp only [hn] at h
    cases h
  · simp only [hn] at h
    split_ifs at h <;> obtain rfl := Except.ok.inj h <;> simp_all <;>
      first
      | (rcases hp with rfl | rfl | rfl <;> simp)
      | (rcases hp with rfl | rfl <;> simp)
      | (rcases hp with rfl <;> simp)
      | rfl

theorem dispatch_roles_no_heal (row : Row) (st : List Char) (kws : List String)
    (effs : List (String × Nat)) (b : List (String × ℚ))
    (h : roles_dispatch row st kws effs = .ok b) :
    ∀ p ∈ b, p.1 ≠ "heal" := by
  rw [roles_dispatch] at h
  split_ifs at h
  · obtain rfl := Except.ok.inj h
    exact pokemon_roles_no_heal row kws effs
  · exact trainer_roles_no_heal row kws effs b h
  · exact energy_roles_no_heal row kws effs b h
  · obtain rfl := Except.ok.inj h
    simp

theorem normalizeRoles_keys (l : List (String × ℚ)) :
    (normalizeRoles l).map Prod.fst = l.map Prod.fst := by
  rw [normalizeRoles]
  split
  · simp
  · rfl

theorem roleCount_eq_zero {deck : List CardFeatures} {role : String}
    (h : ∀ c ∈ deck, role ∉ c.roles.map Prod.fst) :
    roleCount deck role = 0 := by
  rw [roleCount, List.length_eq_zero, List.filter_eq_nil_iff]
  intro c hc
  simpa using h c hc

/-! ## C10 -/

/-- C10 — (a) role classification never assigns a role labelled "heal"
(none of the three per-supertype classifiers uses that label), so (b)
for every non-empty deck of classified cards, the 'stall' archetype fit
degenerates to `min(wall_count / total, 1)`: the 'heal' term of the
stall formula is always zero. -/
theorem C10_stall_is_wall_ratio :
    (∀ (row : Row) (kws : List String) (effs : List (String × Nat))
      (roles : List (String × ℚ)),
      categorize_card_roles row kws effs = .ok roles →
      "heal" ∉ roles.map Prod.fst) ∧
    (∀ deck_cards : List CardFeatures, deck_cards ≠ [] →
      (∀ c ∈ deck_cards, "heal" ∉ c.roles.map Prod.fst) →
      (evaluate_archetype_fit deck_cards).stall =
        min ((roleCount deck_cards "wall" : ℚ) / (deck_cards.length : ℚ)) 1) := by
  constructor
  · intro row kws effs roles hok hmem
    rw [categorize_card_roles] at hok
    rcases hst : row.supertype with _ | st0
    · simp only [hst] at hok
      cases hok
    · simp only [hst] at hok
      rcases hd : roles_dispatch row (lowerData st0) kws effs with e | b <;>
        simp only [hd] at hok
      · obtain rfl := Except.ok.inj hok
        simp at hmem
      · obtain rfl := Except.ok.inj hok
        rw [normalizeRoles_keys] at hmem
        obtain ⟨p, hp, hp1⟩ := List.mem_map.1 hmem
        exact dispatch_roles_no_heal row _ kws effs b hd p hp hp1
  · intro deck_cards hne hheal
    have hzero : roleCount deck_cards "heal" = 0 := roleCount_eq_zero hheal
    have hlen : ¬ deck_cards.length = 0 := by
      simpa [List.length_eq_zero] using hne
    rw [evaluate_archetype_fit, if_neg hlen]
    simp only [hzero]
    norm_num

/-! ## C1 -/

/-- The all-zero archetype-fit record returned for an empty deck. -/
def zeroFit : ArchetypeFit := ⟨0, 0, 0, 0, 0, 0, 0⟩

/-- C1 counterexample — for the empty decklist (whose expanded deck-card
list is empty) the recommendations list is *not* empty: the primary
archetype defaults to `'aggro'` (first key of an all-zero dict), whose
energy-acceleration rule fires (`0 < 2`), and the universal pivot rule
fires (`0 == 0`). -/
theorem C1_counterexample :
    deck_cards_of [] [] = [] ∧
    (detect_synergies [] []).recommendations ≠ [] := by
  refine ⟨rfl, ?_⟩
  have h : (detect_synergies [] []).recommendations = [recEnergyAccel, recPivot] := by
    simp [detect_synergies, generate_deck_recommendations, deck_cards_of,
      evaluate_archetype_fit, primary_archetype, argmaxFirst, roleCount, joinNames]
  rw [h]
  simp

/-- C1 (amended) — when the expanded deck-card list is empty,
`detect_synergies` returns intra-card score 0, no inter-card synergies,
an all-zero archetype fit, and recommendations consisting of exactly the
energy-acceleration (medium) and pivot (low) inclusion suggestions —
not the empty list the claim states. -/
theorem C1_empty_deck (decklist : List (String × Nat))
    (card_features : List CardFeatures)
    (h : deck_cards_of decklist card_features = []) :
    (detect_synergies decklist card_features).intra_card_score = 0 ∧
    (detect_synergies decklist card_features).inter_card_synergies = [] ∧
    (detect_synergies decklist card_features).archetype_fit = zeroFit ∧
    (detect_synergies decklist card_features).recommendations =
      [recEnergyAccel, recPivot] := by
  refine ⟨?_, ?_, ?_, ?_⟩ <;>
    simp [detect_synergies, h, calculate_intra_card_synergy,
      calculate_inter_card_synergies, collectSynergies, sortSynergiesDesc,
      evaluate_archetype_fit, zeroFit, generate_deck_recommendations,
      primary_archetype, argmaxFirst, roleCount, joinNames]

theorem C1_empty_deck_witness :
    deck_cards_of [] [] = [] ∧
    ((detect_synergies [] []).intra_card_score = 0 ∧
     (detect_synergies [] []).inter_card_synergies = [] ∧
     (detect_synergies [] []).archetype_fit = zeroFit ∧
     (detect_synergies [] []).recommendations = [recEnergyAccel, recPivot]) :=
  ⟨rfl, C1_empty_deck [] [] rfl⟩

/-! ## C2 -/

/-- C2 counterexample — asking for a card id absent from the store does
not fail at all: the call succeeds with the empty feature list (there is
no typed NotFound failure anywhere in the operation). -/
theorem C2_counterexample :
    stadiumRow.card_id ≠ some "missing" ∧
    extract_card_features [stadiumRow] (some "missing") = .ok [] :=
  ⟨by simp [stadiumRow], rfl⟩

/-- C2 (amended) — for every store snapshot and non-empty requested id
matching no row, `extract_card_features` silently succeeds with the
empty list; no NotFound failure exists. -/
theorem C2_missing_id_yields_ok_empty (store : List Row) (cid : String)
    (hcid : cid ≠ "")
    (h : ∀ r ∈ store, r.card_id ≠ some cid) :
    extract_card_features store (some cid) = .ok [] := by
  have hfil : (store.filter fun r => r.card_id = some cid) = [] := by
    rw [List.filter_eq_nil_iff]
    intro r hr
    simpa using h r hr
  rw [extract_card_features]
  simp only [if_neg hcid, hfil]
  rfl

theorem C2_missing_id_witness :
    ("missing" ≠ "" ∧ (∀ r ∈ [stadiumRow], r.card_id ≠ some "missing")) ∧
    extract_card_features [stadiumRow] (some "missing") = .ok [] :=
  ⟨⟨by simp, by simp [stadiumRow]⟩,
   C2_missing_id_yields_ok_empty [stadiumRow] "missing" (by simp)
     (by simp [stadiumRow])⟩

/-! ## C3 -/

/-- A well-formed Energy row whose extraction succeeds. -/
def goodEnergyRow : Row :=
  ⟨some "en-1", some "Fire Energy", some "Energy", none, none,
   ⟨none, none⟩, none, ⟨none, none⟩, ⟨none, none⟩, ⟨none, none⟩,
   some "SV", some "Common"⟩

/-- A row with a NULL `supertype` column: feature extraction raises
`AttributeError` at `card_data.get('supertype', '').lower()`. -/
def badSupertypeRow : Row :=
  ⟨some "bad-1", some "Broken Card", none, none, none,
   ⟨none, none⟩, none, ⟨none, none⟩, ⟨none, none⟩, ⟨none, none⟩,
   some "SV", some "Common"⟩

/-- C3 counterexample — a store whose first record extracts fine and
whose second raises: the whole batch call aborts with the exception
instead of degrading only the second record. -/
theorem C3_counterexample :
    (extract_single_card_features goodEnergyRow).isOk = true ∧
    extract_single_card_features badSupertypeRow = .error .attributeError ∧
    extract_card_features [goodEnergyRow, badSupertypeRow] none =
      .error .attributeError :=
  ⟨rfl, rfl, rfl⟩

theorem mapM_error_of_mem {f : Row → Except PyErr CardFeatures}
    {l : List Row} {r : Row} {e : PyErr}
    (hr : r ∈ l) (he : f r = .error e) : (l.mapM f).isOk = false := by
  induction l with
  | nil => cases hr
  | cons s rest ih =>
    rw [List.mapM_cons]
    rcases List.mem_cons.1 hr with rfl | hr2
    · rw [he]
      rfl
    · rcases hs : f s with e3 | b
      · rfl
      · have htail := ih hr2
        rcases hm : rest.mapM f with e2 | bs
        · rfl
        · rw [hm] at htail
          exact Bool.noConfusion htail

/-- C3 (amended) — an extraction error for any one record aborts the
entire `extract_card_features` batch (the per-record exception is
re-raised), contrary to the claim that only that record degrades. -/
theorem C3_record_error_aborts_batch (store : List Row) (r : Row) (e : PyErr)
    (hr : r ∈ store)
    (herr : extract_single_card_features r = .error e) :
    (extract_card_features store none).isOk = false := by
  rw [extract_card_features]
  exact mapM_error_of_mem hr herr

theorem C3_record_error_aborts_batch_witness :
    (badSupertypeRow ∈ [goodEnergyRow, badSupertypeRow] ∧
     extract_single_card_features badSupertypeRow = .error .attributeError) ∧
    (extract_card_features [goodEnergyRow, badSupertypeRow] none).isOk = false :=
  ⟨⟨by simp, rfl⟩,
   C3_record_error_aborts_batch [goodEnergyRow, badSupertypeRow]
     badSupertypeRow .attributeError (by simp) rfl⟩

/-! ## C7 -/

/-- A malformed attacks/abilities column: starts with `'['` but
`json.loads` raises `JSONDecodeError`. -/
def malformedEncA : RawField (List AttackEntry) := ⟨some "[oops", none⟩

def malformedEncS : RawField (List String) := ⟨some "[oops", none⟩

/-- C7 counterexample — for a malformed attacks or abilities encoding the
parser does not fall back to a single-element sequence holding the raw
value: it falls back to the *empty* sequence. -/
theorem C7_counterexample :
    startsWithBracket "[oops" = true ∧
    parse_attacks malformedEncA = [] ∧
    parse_abilities malformedEncA = [] ∧
    (parse_attacks malformedEncA).length ≠ 1 :=
  ⟨rfl, rfl, rfl, by decide⟩

/-- C7 (amended) — malformed (`JSONDecodeError`) encodings never make the
normalizer fail, but the fallback differs by field: `types` falls back
to comma-splitting the raw value, `rules` to the single-element sequence
holding the raw value, while `attacks` and `abilities` fall back to the
empty sequence. -/
theorem C7_malformed_fallbacks (s : String) (hs : s ≠ "")
    (hb : startsWithBracket s = true) :
    parse_types ⟨some s, none⟩ = splitComma s ∧
    parse_attacks ⟨some s, none⟩ = [] ∧
    parse_abilities ⟨some s, none⟩ = [] ∧
    parse_rules ⟨some s, none⟩ = [s] := by
  refine ⟨?_, ?_, ?_, ?_⟩ <;>
    simp [parse_types, parse_attacks, parse_abilities, parse_rules, hs, hb]

theorem C7_malformed_fallbacks_witness :
    ("[oops" ≠ "" ∧ startsWithBracket "[oops" = true) ∧
    (parse_types ⟨some "[oops", none⟩ = splitComma "[oops" ∧
     parse_attacks ⟨some "[oops", none⟩ = [] ∧
     parse_abilities ⟨some "[oops", none⟩ = [] ∧
     parse_rules ⟨some "[oops", none⟩ = ["[oops"]) :=
  ⟨⟨by simp, rfl⟩, C7_malformed_fallbacks "[oops" (by simp) rfl⟩

/-! ## C8 -/

theorem lookup_effectEntry_ne (k key t : String) (l : List (String × Nat))
    (h : (k == key) = false) :
    ((effectEntry key t) ++ l).lookup k = l.lookup k := by
  rw [effectEntry]
  split
  · simp
  · simp [List.lookup, h]

theorem lookup_effectEntry_none (k key t : String)
    (h : (k == key) = false) :
    (effectEntry key t).lookup k = none := by
  rw [effectEntry]
  split
  · rfl
  · simp [List.lookup, h]

/-- A Basic Pokémon whose only attack text contains "flip a coin". -/
def coinRow : Row :=
  ⟨some "pk-9", some "Flipper", some "Pokémon", some "Basic", some 60,
   ⟨some "[\"Water\"]", some ["Water"]⟩, some 1,
   ⟨some "[\x7b\"name\": \"Splash\", \"text\": \"Flip a coin. If heads, this attack does 30 more damage.\"\x7d]",
    some [⟨some "Splash",
      some "Flip a coin. If heads, this attack does 30 more damage."⟩]⟩,
   ⟨none, none⟩, ⟨none, none⟩, some "SV", some "Common"⟩

/-- The combined analyzable text of `coinRow`. -/
def coinText : String :=
  combine_card_text (parse_attacks coinRow.attacks)
    (parse_abilities coinRow.abilities) (parse_rules coinRow.rules)

/-- C8 — the condition extractor does find "flip a coin" in the card's
combined text, but the pros/cons evaluator *never* emits the
"Relies on coin flips (inconsistent)" con: the source looks the string
key `'conditions'` up in the numerical-effects mapping, which only ever
carries the six numeric keys, so the guard can never be satisfied
(the conditions list produced by `_extract_conditions` is never passed
to `_analyze_pros_cons`). -/
theorem C8_coin_flip_con_never_emitted :
    "flip a coin" ∈ extract_conditions coinText ∧
    (∀ text : String,
      (extract_numerical_effects text).lookup "conditions" = none) ∧
    (∀ (row : Row) (kws : List String) (effs : List (String × Nat)),
      "Relies on coin flips (inconsistent)" ∉
        (analyze_pros_cons row kws effs).2) := by
  refine ⟨by decide, ?_, ?_⟩
  · intro text
    rw [extract_numerical_effects]
    split
    · rfl
    · simp only [List.append_assoc]
      rw [lookup_effectEntry_ne _ _ _ _ (by decide),
          lookup_effectEntry_ne _ _ _ _ (by decide),
          lookup_effectEntry_ne _ _ _ _ (by decide),
          lookup_effectEntry_ne _ _ _ _ (by decide),
          lookup_effectEntry_ne _ _ _ _ (by decide),
          lookup_effectEntry_none _ _ _ (by decide)]
  · intro row kws effs
    rw [analyze_pros_cons]
    rcases hsup : row.supertype with _ | st0
    · simp
    · rcases h : effs.lookup "conditions" with _ | v <;>
        simp only [h] <;> split_ifs <;> simp

/-! ## C9 -/

/-- Arithmetic core of the complementary-role bonus: below the cap the
bonus is worth exactly 0.4, and the cap is not hit when the unbonused
sum stays ≤ 0.6. -/
theorem min_bonus (b : ℚ) (h : min b 1 ≤ 6/10) :
    min b 1 + 4/10 ≤ min (b + 4/10) 1 := by
  rcases le_or_lt b 1 with hle | hlt
  · rw [min_eq_left hle] at h ⊢
    have h1 : b + 4/10 ≤ 1 := by linarith
    rw [min_eq_left h1]
  · rw [min_eq_right hlt.le] at h
    norm_num at h

/-- C9 (amended) — two cards whose roles contain `main_attacker` and
`setup_pokemon` respectively score at least 0.4 more in pairwise synergy
than the otherwise-identical pair with non-complementary roles, provided
the role-lacking pair scores at most 0.6; the claim as stated fails when
the bonused score hits the 1.0 cap (see the counterexample). -/
theorem C9_complementary_bonus (c1 c2 : CardFeatures)
    (r1 r2 : List (String × ℚ))
    (h1 : "main_attacker" ∈ c1.roles.map Prod.fst)
    (h2 : "setup_pokemon" ∈ c2.roles.map Prod.fst)
    (hnc : are_roles_complementary r1 r2 = false)
    (hbase : calculate_pair_synergy { c1 with roles := r1 }
      { c2 with roles := r2 } ≤ 6/10) :
    calculate_pair_synergy { c1 with roles := r1 } { c2 with roles := r2 }
      + 4/10 ≤ calculate_pair_synergy c1 c2 := by
  have hcomp : are_roles_complementary c1.roles c2.roles = true := by
    simp only [are_roles_complementary, complementary_pairs, List.any_cons,
      Bool.or_eq_true, Bool.and_eq_true]
    exact Or.inl (Or.inl ⟨List.elem_eq_true_of_mem h1, List.elem_eq_true_of_mem h2⟩)
  rw [calculate_pair_synergy] at hbase ⊢
  rw [calculate_pair_synergy]
  simp only [hcomp, hnc, if_true, if_false, Bool.false_eq_true, Bool.true_eq_false] at hbase ⊢
  by_cases hty : c1.supertype = some "Pokémon" ∧ c2.supertype = some "Pokémon" ∧
      interCount c1.types c2.types ≠ 0
  · rw [if_pos hty] at hbase ⊢
    rw [if_pos hty]
    have e1 : (interCount c1.synergy_tags c2.synergy_tags : ℚ) * (2/10) + 4/10
        + 3/10 + (interCount c1.semantic_keywords c2.semantic_keywords : ℚ) * (1/10)
        = ((interCount c1.synergy_tags c2.synergy_tags : ℚ) * (2/10) + 3/10
          + (interCount c1.semantic_keywords c2.semantic_keywords : ℚ) * (1/10))
          + 4/10 := by ring
    rw [e1]
    exact min_bonus _ hbase
  · rw [if_neg hty] at hbase ⊢
    rw [if_neg hty]
    have e1 : (interCount c1.synergy_tags c2.synergy_tags : ℚ) * (2/10) + 4/10
        + (interCount c1.semantic_keywords c2.semantic_keywords : ℚ) * (1/10)
        = ((interCount c1.synergy_tags c2.synergy_tags : ℚ) * (2/10)
          + (interCount c1.semantic_keywords c2.semantic_keywords : ℚ) * (1/10))
          + 4/10 := by ring
    rw [e1]
    exact min_bonus _ hbase

/-- A main attacker sharing type, two tags and one keyword with its
partner: base synergy 0.8, hitting the 1.0 cap once the role bonus is
added. -/
def c9a : CardFeatures :=
  { card_id := some "x1", name := some "Attacker", supertype := some "Pokémon",
    subtype := some "Basic", hp := some 100, types := ["Fire"],
    retreat_cost := some 1, attacks := [], abilities := [], rules := [],
    expansion := some "SV", rarity := some "Rare",
    semantic_keywords := ["draw"], numerical_effects := [], conditions := [],
    roles := [("main_attacker", 1)], pros := [], cons := [],
    synergy_tags := ["Fire", "draw_synergy"] }

def c9b : CardFeatures :=
  { c9a with
    card_id := some "x2", name := some "Setup",
    roles := [("setup_pokemon", 1)] }

/-- C9 counterexample — with the complementary pair the score caps at
1.0 while the role-stripped pair scores 0.8, a gap of only 0.2 < 0.4:
the claim fails as universally stated. -/
theorem C9_counterexample :
    calculate_pair_synergy c9a c9b = 1 ∧
    calculate_pair_synergy { c9a with roles := [] } { c9b with roles := [] }
      = 8/10 ∧
    calculate_pair_synergy c9a c9b <
      calculate_pair_synergy { c9a with roles := [] } { c9b with roles := [] }
        + 4/10 := by
  refine ⟨?_, ?_, ?_⟩ <;>
    simp only [calculate_pair_synergy, c9a, c9b, are_roles_complementary,
      complementary_pairs, interCount, dedup, dedupAux] <;>
    simp [min_def] <;> norm_num

/-- Like `c9a`/`c9b` but with only one shared tag and no shared
keywords, so the unbonused pair stays at 0.5 ≤ 0.6. -/
def c9c : CardFeatures :=
  { c9a with
    semantic_keywords := [], synergy_tags := ["Fire"] }

def c9d : CardFeatures :=
  { c9c with
    card_id := some "x2", name := some "Setup2",
    roles := [("setup_pokemon", 1)] }

theorem C9_complementary_bonus_witness :
    ("main_attacker" ∈ c9c.roles.map Prod.fst ∧
     "setup_pokemon" ∈ c9d.roles.map Prod.fst ∧
     are_roles_complementary ([] : List (String × ℚ)) ([] : List (String × ℚ)) = false ∧
     calculate_pair_synergy { c9c with roles := ([] : List (String × ℚ)) }
       { c9d with roles := ([] : List (String × ℚ)) } ≤ 6/10) ∧
    calculate_pair_synergy { c9c with roles := ([] : List (String × ℚ)) }
        { c9d with roles := ([] : List (String × ℚ)) } + 4/10 ≤
      calculate_pair_synergy c9c c9d := by
  have hb : calculate_pair_synergy { c9c with roles := ([] : List (String × ℚ)) }
      { c9d with roles := ([] : List (String × ℚ)) } ≤ 6/10 := by
    simp only [calculate_pair_synergy, c9c, c9d, c9a, are_roles_complementary,
      complementary_pairs, interCount, dedup, dedupAux] <;>
      simp [min_def] <;> norm_num
  exact ⟨⟨by decide, by decide, by decide, hb⟩,
    C9_complementary_bonus c9c c9d [] [] (by decide) (by decide) (by decide) hb⟩

/-! ## C6 -/

/-- `maxNat` really is the maximum of a non-empty match list (Python's
`max(int(m) for m in matches)`). -/
theorem foldl_max_mem (l : List Nat) (a : Nat) :
    l.foldl max a = a ∨ l.foldl max a ∈ l := by
  induction l generalizing a with
  | nil => exact Or.inl rfl
  | cons b t ih =>
    rw [List.foldl_cons]
    rcases ih (max a b) with h | h
    · rw [h]
      rcases max_choice a b with hm | hm
      · exact Or.inl hm
      · exact Or.inr (by rw [hm]; exact List.mem_cons_self b t)
    · exact Or.inr (List.mem_cons_of_mem b h)

theorem le_foldl_max (l : List Nat) (a : Nat) :
    a ≤ l.foldl max a ∧ ∀ x ∈ l, x ≤ l.foldl max a := by
  induction l generalizing a with
  | nil => exact ⟨le_refl a, by simp⟩
  | cons b t ih =>
    rw [List.foldl_cons]
    obtain ⟨h1, h2⟩ := ih (max a b)
    refine ⟨le_trans (le_max_left a b) h1, ?_⟩
    intro x hx
    rcases List.mem_cons.1 hx with rfl | hx
    · exact le_trans (le_max_right a x) h1
    · exact h2 x hx

theorem maxNat_spec (ms : List Nat) (hne : ms ≠ []) :
    maxNat ms ∈ ms ∧ ∀ x ∈ ms, x ≤ maxNat ms := by
  refine ⟨?_, by rw [maxNat]; exact (le_foldl_max ms 0).2⟩
  rcases foldl_max_mem ms 0 with h | h
  · cases ms with
    | nil => exact absurd rfl hne
    | cons b t =>
      have hb : b ≤ (b :: t).foldl max 0 :=
        (le_foldl_max (b :: t) 0).2 b (List.mem_cons_self b t)
      rw [h] at hb
      have hb0 : b = 0 := Nat.le_zero.1 hb
      rw [maxNat, h, ← hb0]
      exact List.mem_cons_self b t
  · rw [maxNat]
    exact h

theorem lookup_effectEntry_eq (key t : String) (l : List (String × Nat)) :
    ((effectEntry key t) ++ l).lookup key =
      if (patternMatches key t).isEmpty then l.lookup key
      else some (maxNat (patternMatches key t)) := by
  rw [effectEntry]
  split
  · simp_all
  · simp_all [List.lookup]

theorem lookup_effectEntry_eq_nil (key t : String) :
    (effectEntry key t).lookup key =
      if (patternMatches key t).isEmpty then none
      else some (maxNat (patternMatches key t)) := by
  rw [effectEntry]
  split
  · simp_all
  · simp_all [List.lookup]

/-- C6 — For every input text, numeric extraction maps each of the six
effect kinds to the maximum of all matches of its fixed pattern
(`maxNat`, whose max-ness is `maxNat_spec`) and omits the key when there
is no match; in particular "draw 1 card, then draw 3 more" yields
`draw_amount = 3`, and "Draw 3 cards and deal 120 damage" yields exactly
`{draw_amount: 3, damage_amount: 120}`. -/
theorem C6_numerical_effects_max_policy :
    (∀ text : String,
      ((extract_numerical_effects text).lookup "draw_amount" =
        if (patternMatches "draw_amount" text).isEmpty then none
        else some (maxNat (patternMatches "draw_amount" text))) ∧
      ((extract_numerical_effects text).lookup "damage_amount" =
        if (patternMatches "damage_amount" text).isEmpty then none
        else some (maxNat (patternMatches "damage_amount" text))) ∧
      ((extract_numerical_effects text).lookup "discard_amount" =
        if (patternMatches "discard_amount" text).isEmpty then none
        else some (maxNat (patternMatches "discard_amount" text))) ∧
      ((extract_numerical_effects text).lookup "search_amount" =
        if (patternMatches "search_amount" text).isEmpty then none
        else some (maxNat (patternMatches "search_amount" text))) ∧
      ((extract_numerical_effects text).lookup "energy_cost" =
        if (patternMatches "energy_cost" text).isEmpty then none
        else some (maxNat (patternMatches "energy_cost" text))) ∧
      ((extract_numerical_effects text).lookup "heal_amount" =
        if (patternMatches "heal_amount" text).isEmpty then none
        else some (maxNat (patternMatches "heal_amount" text)))) ∧
    (extract_numerical_effects "draw 1 card, then draw 3 more").lookup
      "draw_amount" = some 3 ∧
    extract_numerical_effects "Draw 3 cards and deal 120 damage" =
      [("draw_amount", 3), ("damage_amount", 120)] := by
  refine ⟨?_, by decide, by decide⟩
  intro text
  by_cases h : text = ""
  · subst h
    refine ⟨?_, ?_, ?_, ?_, ?_, ?_⟩ <;> decide
  · rw [extract_numerical_effects, if_neg h]
    simp only [List.append_assoc]
    refine ⟨?_, ?_, ?_, ?_, ?_, ?_⟩
    · rw [lookup_effectEntry_eq]
      refine if_congr Iff.rfl ?_ rfl
      rw [lookup_effectEntry_ne _ _ _ _ (by decide),
          lookup_effectEntry_ne _ _ _ _ (by decide),
          lookup_effectEntry_ne _ _ _ _ (by decide),
          lookup_effectEntry_ne _ _ _ _ (by decide),
          lookup_effectEntry_none _ _ _ (by decide)]
    · rw [lookup_effectEntry_ne _ _ _ _ (by decide), lookup_effectEntry_eq]
      refine if_congr Iff.rfl ?_ rfl
      rw [lookup_effectEntry_ne _ _ _ _ (by decide),
          lookup_effectEntry_ne _ _ _ _ (by decide),
          lookup_effectEntry_ne _ _ _ _ (by decide),
          lookup_effectEntry_none _ _ _ (by decide)]
    · rw [lookup_effectEntry_ne _ _ _ _ (by decide),
          lookup_effectEntry_ne _ _ _ _ (by decide), lookup_effectEntry_eq]
      refine if_congr Iff.rfl ?_ rfl
      rw [lookup_effectEntry_ne _ _ _ _ (by decide),
          lookup_effectEntry_ne _ _ _ _ (by decide),
          lookup_effectEntry_none _ _ _ (by decide)]
    · rw [lookup_effectEntry_ne _ _ _ _ (by decide),
          lookup_effectEntry_ne _ _ _ _ (by decide),
          lookup_effectEntry_ne _ _ _ _ (by decide), lookup_effectEntry_eq]
      refine if_congr Iff.rfl ?_ rfl
      rw [lookup_effectEntry_ne _ _ _ _ (by decide),
          lookup_effectEntry_none _ _ _ (by decide)]
    · rw [lookup_effectEntry_ne _ _ _ _ (by decide),
          lookup_effectEntry_ne _ _ _ _ (by decide),
          lookup_effectEntry_ne _ _ _ _ (by decide),
          lookup_effectEntry_ne _ _ _ _ (by decide), lookup_effectEntry_eq]
      refine if_congr Iff.rfl ?_ rfl
      rw [lookup_effectEntry_none _ _ _ (by decide)]
    · rw [lookup_effectEntry_ne _ _ _ _ (by decide),
          lookup_effectEntry_ne _ _ _ _ (by decide),
          lookup_effectEntry_ne _ _ _ _ (by decide),
          lookup_effectEntry_ne _ _ _ _ (by decide),
          lookup_effectEntry_ne _ _ _ _ (by decide),
          lookup_effectEntry_eq_nil]

/-! ## C10 witness -/

/-- A deck card carrying only the `wall` role. -/
def wallCard : CardFeatures :=
  { c9a with roles := [("wall", 1)] }

theorem C10_stall_is_wall_ratio_witness :
    (categorize_card_roles stadiumRow [] [] =
        .ok [("stadium", (9:ℚ)/10 / (9/10))] ∧
     "heal" ∉ ([("stadium", (9:ℚ)/10 / (9/10))] :
        List (String × ℚ)).map Prod.fst) ∧
    (([wallCard] : List CardFeatures) ≠ [] ∧
     (∀ c ∈ [wallCard], "heal" ∉ c.roles.map Prod.fst) ∧
     (evaluate_archetype_fit [wallCard]).stall =
       min ((roleCount [wallCard] "wall" : ℚ) /
         (([wallCard] : List CardFeatures).length : ℚ)) 1) := by
  have hcat : categorize_card_roles stadiumRow [] [] =
      .ok [("stadium", (9:ℚ)/10 / (9/10))] := by
    simp [categorize_card_roles, stadiumRow, roles_dispatch, lowerData,
      lowerChar, categorize_trainer_roles, normalizeRoles, sumVals]
  have hheal : ∀ c ∈ [wallCard], "heal" ∉ c.roles.map Prod.fst := by decide
  exact ⟨⟨hcat, C10_stall_is_wall_ratio.1 stadiumRow [] [] _ hcat⟩,
    ⟨by simp, hheal, C10_stall_is_wall_ratio.2 [wallCard] (by simp) hheal⟩⟩

end PKM
